import Mathlib

/-!
Naming engine of `aws/aws.go`.

A shallow embedding of the package `aws` of `gmeligio/naming`.

* Go strings are Lean `String`s; `==` on strings is equality.
* A Go slice of strings is modelled together with the part of its backing array that it
  can reach: the `len` visible elements and the `cap - len` cells after them.  This is what
  makes the in-place branch of `slices.Insert` observable.
* A value of type `error` is `Option String`: `none` is `nil`, `some m` is an error whose
  `Error()` text is `m` (both errors of the package come from `fmt.Errorf`).
* Each method returns an `Out`: the two Go results, the engine the receiver points to as it
  is after the call, and the lines written to standard output.
-/

namespace Aws

/-! ## Slices -/

/-- A Go `[]string` seen from its first element: `elems` are the `len` visible elements,
`spare` the cells of the backing array between `len` and `cap`. -/
structure Slice where
  elems : List String
  spare : List String
  deriving DecidableEq, Repr

namespace Slice

/-- Go `len(s)`. -/
def len (s : Slice) : Nat := s.elems.length

/-- Go `cap(s)`. -/
def cap (s : Slice) : Nat := s.elems.length + s.spare.length

/-- The cells of the backing array from the first element of the slice up to its capacity. -/
def cells (s : Slice) : List String := s.elems ++ s.spare

/-- The slice header of length `k` over the given cells (`s[:k]` on the array). -/
def view (cs : List String) (k : Nat) : Slice := ⟨cs.take k, cs.drop k⟩

/-- The nil slice, also the value of the literal `[]string{}` as far as `len` and `cap` go. -/
def empty : Slice := ⟨[], []⟩

end Slice

/-- Go `copy(cs[i:], src)` on the cells `cs`: overwrites the cells from index `i` on with the
elements of `src`, as many as fit.  The source is read before anything is written (`copy`
has `memmove` semantics), so `src` is a list of values. -/
def copyAt (cs : List String) (i : Nat) (src : List String) : List String :=
  cs.take i ++ src.take (cs.length - i) ++ cs.drop (i + src.length)

/-- Go's built-in `append(s, v...)`.  The first component is the returned slice, the second
is the argument slice as it is after the call (same header, possibly changed spare cells).
When the capacity does not suffice a new array is allocated; its capacity is chosen by the
runtime and is never observed by this package, the model allocates an exact fit. -/
def append (s : Slice) (v : List String) : Slice × Slice :=
  if s.len + v.length ≤ s.cap then
    let cs := copyAt s.cells s.len v
    (Slice.view cs (s.len + v.length), Slice.view cs s.len)
  else
    (⟨s.elems ++ v, []⟩, s)

/-- Go's `slices.Insert(s, i, v...)` for `i ≤ len(s)` (it panics otherwise; the package calls
it with `i = 0`) and `v` not overlapping `s` (the variadic argument of the call is a fresh
slice).  The first component is the returned slice, the second is the argument slice as it
is after the call: when `len(s) + len(v) ≤ cap(s)` the insertion happens in the backing
array of `s`. -/
def Insert (s : Slice) (i : Nat) (v : List String) : Slice × Slice :=
  let m := v.length
  if m = 0 then (s, s)
  else
    let n := s.len
    if i = n then append s v
    else if n + m > s.cap then
      -- s2 := append(s[:i], make(S, n+m-i)...); copy(s2[i:], v); copy(s2[i+m:], s[i:])
      let s2 := s.elems.take i ++ List.replicate (n + m - i) ""
      let s2 := copyAt s2 i v
      let s2 := copyAt s2 (i + m) (s.elems.drop i)
      (⟨s2, []⟩, s)
    else
      -- s = s[:n+m]; copy(s[i+m:], s[i:]); copy(s[i:], v)
      let cs := s.cells
      let hi := cs.drop (n + m)
      let w := cs.take (n + m)
      let w := copyAt w (i + m) (w.drop i)
      let w := copyAt w i v
      (Slice.view (w ++ hi) (n + m), Slice.view (w ++ hi) n)

/-- Go's `strings.Join(elems, sep)`. -/
def Join : List String → String → String
  | [], _ => ""
  | [e], _ => e
  | e :: rest, sep => rest.foldl (fun b s => b ++ sep ++ s) e

/-! ## The region table -/

/-- The map literal `ShortRegions`, entry by entry. -/
def ShortRegions : List (String × String) :=
  [ ("af-south-1", "afs1"),
    ("ap-east-1", "ape1"),
    ("ap-northeast-1", "apne1"),
    ("ap-northeast-2", "apne2"),
    ("ap-northeast-3", "apne3"),
    ("ap-south-1", "aps1"),
    ("ap-south-2", "aps2"),
    ("ap-southeast-1", "apse1"),
    ("ap-southeast-2", "apse2"),
    ("ap-southeast-3", "apse3"),
    ("ap-southeast-4", "apse4"),
    ("ca-central-1", "cac1"),
    ("ca-west-1", "caw1"),
    ("cn-north-1", "cnn1"),
    ("cn-northwest-1", "cnnw1"),
    ("eu-central-1", "euc1"),
    ("eu-central-2", "euc2"),
    ("eu-north-1", "eun1"),
    ("eu-south-1", "eus1"),
    ("eu-south-2", "eus2"),
    ("eu-west-1", "euw1"),
    ("eu-west-2", "euw2"),
    ("eu-west-3", "euw3"),
    ("il-central-1", "ilc1"),
    ("me-central-1", "mec1"),
    ("me-south-1", "mes1"),
    ("sa-east-1", "sae1"),
    ("us-east-1", "use1"),
    ("us-east-2", "use2"),
    ("us-gov-east-1", "usge1"),
    ("us-gov-west-1", "usgw1"),
    ("us-west-1", "usw1"),
    ("us-west-2", "usw2") ]

/-- The map index expression `ShortRegions[region]` with the comma-ok form: `some code` when
the key is present, `none` otherwise. -/
def lookupRegion (region : String) : Option String :=
  ShortRegions.lookup region

/-! ## The engine -/

/-- The struct `NamingAws`. -/
structure NamingAws where
  DefaultDelimiter : String
  SSMDelimiter : String
  PrefixSegments : Slice
  SuffixLength : Int
  UseShortRegion : Bool
  deriving DecidableEq, Repr

/-- The constructor `NewNamingAws`; `UseShortRegion` is left at its zero value. -/
def NewNamingAws : NamingAws :=
  { PrefixSegments := Slice.empty
    DefaultDelimiter := "-"
    SSMDelimiter := "/"
    SuffixLength := 4
    UseShortRegion := false }

/-- What a method call leaves behind: the returned `(string, error)` pair, the engine behind
the receiver after the call, and the lines printed. -/
structure Out where
  name : String
  err : Option String
  engine : NamingAws
  printed : List String
  deriving DecidableEq, Repr

/-- The text of the error of `Name` for an empty `shortName`. -/
def emptyShortNameMsg : String :=
  "Passed an empty shortName but that's not supported. shortName is required to be non-empty."

/-- The text of the error of `WithRegionName` for a region missing from the table
(`fmt.Errorf` with one `%s` verb). -/
def unsupportedRegionMsg (region : String) : String :=
  "Region " ++ region ++
    " is not supported. Please create a new issue if it's a region that is supported by AWS."

/-- The line printed by `S3Bucket`. -/
def s3Advice : String :=
  "It's highly recommended to use WithRegionS3() instead of S3() because the bucket name must be unique globally and, at the same time, they are located in a specific region. Hence, it makes sense to include the region in the name."

/-- Method `Name`. -/
def Name (n : NamingAws) (prefixSegments : Slice) (shortName separator : String) : Out :=
  if shortName = "" then
    { name := "", err := some emptyShortNameMsg, engine := n, printed := [] }
  else
    let segments : Slice := Slice.empty
    let segments := (append segments prefixSegments.elems).1
    let segments := (append segments [shortName]).1
    { name := Join segments.elems separator, err := none, engine := n, printed := [] }

/-- Method `Default`. -/
def Default (n : NamingAws) (shortName : String) : Out :=
  let r := Name n n.PrefixSegments shortName n.DefaultDelimiter
  if r.err ≠ none then { r with name := "" } else r

/-- Method `S3Bucket`. -/
def S3Bucket (n : NamingAws) (shortName : String) : Out :=
  let r := Name n n.PrefixSegments shortName n.SSMDelimiter
  let r := { r with printed := s3Advice :: r.printed }
  if r.err ≠ none then { r with name := "" } else r

/-- Method `SSMParameter`. -/
def SSMParameter (n : NamingAws) (shortName : String) : Out :=
  let r := Name n n.PrefixSegments shortName n.SSMDelimiter
  if r.err ≠ none then { r with name := "" } else r

/-- Method `WithRegionName`. -/
def WithRegionName (n : NamingAws) (shortName separator region : String) : Out :=
  let resolved : Option String :=
    if n.UseShortRegion then lookupRegion region else some region
  match resolved with
  | none => { name := "", err := some (unsupportedRegionMsg region), engine := n, printed := [] }
  | some regionSegment =>
    let ins := Insert n.PrefixSegments 0 [regionSegment]
    let segments := ins.1
    let n := { n with PrefixSegments := ins.2 }
    let r := Name n segments shortName separator
    if r.err ≠ none then { r with name := "" } else r

/-- Method `WithRegionDefault`. -/
def WithRegionDefault (n : NamingAws) (shortName region : String) : Out :=
  let r := WithRegionName n shortName n.DefaultDelimiter region
  if r.err ≠ none then { r with name := "" } else r

/-- Method `WithRegionSSMParameter`. -/
def WithRegionSSMParameter (n : NamingAws) (shortName region : String) : Out :=
  let r := WithRegionName n shortName n.SSMDelimiter region
  if r.err ≠ none then { r with name := "" } else r

/-- Method `WithRegionS3Bucket`. -/
def WithRegionS3Bucket (n : NamingAws) (shortName region : String) : Out :=
  let r := WithRegionName n shortName n.DefaultDelimiter region
  if r.err ≠ none then { r with name := "" } else r

end Aws

namespace Aws

/-! ## Auxiliary facts about the slice model -/

theorem copyAt_length_self (cs src : List String) :
    copyAt cs cs.length src = cs := by
  simp [copyAt]

theorem append_fst_elems (s : Slice) (v : List String) :
    (append s v).1.elems = s.elems ++ v := by
  unfold append
  split
  · rename_i h
    simp only [Slice.len, Slice.cap, Slice.cells, Slice.view, copyAt] at *
    have h1 : v.length ≤ s.spare.length := by omega
    simp [List.take_append_eq_append_take, List.take_of_length_le, h1]
  · rfl

theorem Join_eq_intercalate (xs : List String) (sep : String) :
    Join xs sep = sep.intercalate xs := by
  have go : ∀ (rest : List String) (acc : String),
      rest.foldl (fun b s => b ++ sep ++ s) acc = String.intercalate.go acc sep rest := by
    intro rest
    induction rest with
    | nil => intro acc; rfl
    | cons a as ih => intro acc; simp [String.intercalate.go, ih]
  match xs with
  | [] => rfl
  | [e] => rfl
  | e :: f :: rest => simp [Join, String.intercalate, go]

theorem intercalate_data (sep : String) (xs : List String) :
    (sep.intercalate xs).data = List.intercalate sep.data (xs.map String.data) := by
  have go : ∀ (rest : List String) (acc : String),
      (String.intercalate.go acc sep rest).data
        = acc.data ++ (rest.map (fun s => sep.data ++ s.data)).flatten := by
    intro rest
    induction rest with
    | nil => intro acc; simp [String.intercalate.go]
    | cons a as ih => intro acc; simp [String.intercalate.go, ih, List.append_assoc]
  have flat : ∀ (a : String) (rest : List String),
      List.intercalate sep.data ((a :: rest).map String.data)
        = a.data ++ (rest.map (fun s => sep.data ++ s.data)).flatten := by
    intro a rest
    induction rest generalizing a with
    | nil => simp [List.intercalate, List.intersperse]
    | cons b bs ih =>
      have := ih b
      simp only [List.intercalate, List.map_cons, List.intersperse_cons_cons,
        List.flatten_cons] at this ⊢
      rw [this]
      simp
  match xs with
  | [] => rfl
  | a :: rest => rw [flat]; simp [String.intercalate, go]

theorem Name_ok (n : NamingAws) (prefixSegments : Slice) (shortName separator : String)
    (h : shortName ≠ "") :
    Name n prefixSegments shortName separator =
      { name := separator.intercalate (prefixSegments.elems ++ [shortName]), err := none,
        engine := n, printed := [] } := by
  simp [Name, h, append_fst_elems, Join_eq_intercalate, Slice.empty]

theorem Name_empty (n : NamingAws) (prefixSegments : Slice) (separator : String) :
    Name n prefixSegments "" separator =
      { name := "", err := some emptyShortNameMsg, engine := n, printed := [] } := by
  simp [Name]

theorem Insert_zero_fst_elems (s : Slice) (r : String) :
    (Insert s 0 [r]).1.elems = r :: s.elems := by
  obtain ⟨elems, spare⟩ := s
  cases elems with
  | nil =>
    simp only [Insert, Slice.len, List.length_nil, List.length_singleton]
    simp [append_fst_elems]
  | cons a as =>
    simp only [Insert, Slice.len, Slice.cap, Slice.cells, Slice.view, copyAt,
      List.length_singleton, List.length_cons]
    by_cases hc : as.length + 1 + 1 > as.length + 1 + spare.length
    · simp [hc, List.replicate_succ]
      omega
    · have h1 : 1 ≤ spare.length := by omega
      simp [hc, List.take_append_eq_append_take, List.take_of_length_le, h1]

theorem lookup_none_of_not_key (region : String) (tbl : List (String × String))
    (h : region ∉ tbl.map Prod.fst) : tbl.lookup region = none := by
  induction tbl with
  | nil => rfl
  | cons p ps ih =>
    obtain ⟨k, c⟩ := p
    simp only [List.map_cons, List.mem_cons, not_or] at h
    have hk : (region == k) = false := by simpa using h.1
    simp [List.lookup, hk, ih h.2]

theorem lookupRegion_of_entry :
    ∀ p ∈ ShortRegions, lookupRegion p.1 = some p.2 := by
  decide

theorem WithRegionName_resolved (n : NamingAws) (shortName separator region seg : String)
    (hres : (if n.UseShortRegion then lookupRegion region else some region) = some seg)
    (h : shortName ≠ "") :
    (WithRegionName n shortName separator region).err = none ∧
    (WithRegionName n shortName separator region).name
      = separator.intercalate (seg :: n.PrefixSegments.elems ++ [shortName]) := by
  simp only [WithRegionName, hres]
  simp [Name_ok _ _ shortName separator h, Insert_zero_fst_elems]

theorem Insert_zero_snd_elems (s : Slice) (r : String) :
    (Insert s 0 [r]).2.elems
      = if s.len + 1 ≤ s.cap then (r :: s.elems).take s.len else s.elems := by
  obtain ⟨elems, spare⟩ := s
  cases elems with
  | nil =>
    simp only [Insert, append, Slice.len, Slice.cap, Slice.view, List.length_nil,
      List.length_singleton]
    by_cases h : 1 ≤ spare.length <;> simp [h]
  | cons a as =>
    simp only [Insert, Slice.len, Slice.cap, Slice.cells, Slice.view, copyAt,
      List.length_singleton, List.length_cons]
    by_cases hc : as.length + 1 + 1 > as.length + 1 + spare.length
    · have h0 : ¬ (as.length + 1 + 1 ≤ as.length + 1 + spare.length) := by omega
      simp [hc, h0]
    · have h1 : 1 ≤ spare.length := by omega
      have h0 : as.length + 1 + 1 ≤ as.length + 1 + spare.length := by omega
      simp [hc, h0, List.take_append_eq_append_take, List.take_of_length_le, h1]
      rw [← List.cons_append, List.take_append_of_le_length (by simp)]

theorem Name_engine (n : NamingAws) (prefixSegments : Slice) (shortName separator : String) :
    (Name n prefixSegments shortName separator).engine = n := by
  unfold Name
  split <;> rfl

theorem WithRegionName_unresolved (n : NamingAws) (shortName separator region : String)
    (hres : (if n.UseShortRegion then lookupRegion region else some region) = none) :
    WithRegionName n shortName separator region =
      { name := "", err := some (unsupportedRegionMsg region), engine := n, printed := [] } := by
  simp only [WithRegionName, hres]

theorem WithRegionName_resolved_empty (n : NamingAws) (separator region seg : String)
    (hres : (if n.UseShortRegion then lookupRegion region else some region) = some seg) :
    (WithRegionName n "" separator region).err = some emptyShortNameMsg ∧
    (WithRegionName n "" separator region).name = "" := by
  simp only [WithRegionName, hres]
  simp [Name_empty]

theorem WithRegionName_err_name (n : NamingAws) (shortName separator region : String)
    (herr : (WithRegionName n shortName separator region).err ≠ none) :
    (WithRegionName n shortName separator region).name = "" := by
  cases hres : (if n.UseShortRegion then lookupRegion region else some region) with
  | none => rw [WithRegionName_unresolved n shortName separator region hres]
  | some seg =>
    by_cases h : shortName = ""
    · subst h
      exact (WithRegionName_resolved_empty n separator region seg hres).2
    · exact absurd (WithRegionName_resolved n shortName separator region seg hres h).1 herr

theorem lookupRegion_of_key (region : String) (hk : region ∈ ShortRegions.map Prod.fst) :
    ∃ code, (region, code) ∈ ShortRegions ∧ lookupRegion region = some code := by
  obtain ⟨p, hp, rfl⟩ := List.mem_map.1 hk
  exact ⟨p.2, hp, lookupRegion_of_entry p hp⟩

theorem guard_name_eq (r : Out) (h : r.err ≠ none → r.name = "") :
    (if r.err ≠ none then { r with name := "" } else r) = r := by
  by_cases herr : r.err = none
  · simp [herr]
  · have hn := h herr
    simp only [ne_eq, herr, not_false_eq_true, if_true]
    cases r
    simp_all

theorem WithRegionDefault_eq (n : NamingAws) (shortName region : String) :
    WithRegionDefault n shortName region
      = WithRegionName n shortName n.DefaultDelimiter region :=
  guard_name_eq _ (WithRegionName_err_name n shortName n.DefaultDelimiter region)

theorem WithRegionSSMParameter_eq (n : NamingAws) (shortName region : String) :
    WithRegionSSMParameter n shortName region
      = WithRegionName n shortName n.SSMDelimiter region :=
  guard_name_eq _ (WithRegionName_err_name n shortName n.SSMDelimiter region)

theorem WithRegionS3Bucket_eq (n : NamingAws) (shortName region : String) :
    WithRegionS3Bucket n shortName region
      = WithRegionName n shortName n.DefaultDelimiter region :=
  guard_name_eq _ (WithRegionName_err_name n shortName n.DefaultDelimiter region)

theorem Name_err_name (n : NamingAws) (prefixSegments : Slice) (shortName separator : String)
    (herr : (Name n prefixSegments shortName separator).err ≠ none) :
    (Name n prefixSegments shortName separator).name = "" := by
  by_cases h : shortName = ""
  · subst h
    rw [Name_empty]
  · rw [Name_ok n prefixSegments shortName separator h] at herr
    exact absurd rfl herr

theorem Default_eq (n : NamingAws) (shortName : String) :
    Default n shortName = Name n n.PrefixSegments shortName n.DefaultDelimiter :=
  guard_name_eq _ (Name_err_name n n.PrefixSegments shortName n.DefaultDelimiter)

theorem SSMParameter_eq (n : NamingAws) (shortName : String) :
    SSMParameter n shortName = Name n n.PrefixSegments shortName n.SSMDelimiter :=
  guard_name_eq _ (Name_err_name n n.PrefixSegments shortName n.SSMDelimiter)

theorem S3Bucket_eq (n : NamingAws) (shortName : String) :
    S3Bucket n shortName
      = { Name n n.PrefixSegments shortName n.SSMDelimiter with printed := [s3Advice] } := by
  by_cases h : shortName = ""
  · subst h
    simp [S3Bucket, Name_empty]
  · simp [S3Bucket, Name_ok _ _ shortName _ h]

theorem intercalate_cons_data (sep a : String) (rest : List String) :
    (sep.intercalate (a :: rest)).data
      = a.data ++ (rest.map (fun s => sep.data ++ s.data)).flatten := by
  have go : ∀ (rest : List String) (acc : String),
      (String.intercalate.go acc sep rest).data
        = acc.data ++ (rest.map (fun s => sep.data ++ s.data)).flatten := by
    intro rest
    induction rest with
    | nil => intro acc; simp [String.intercalate.go]
    | cons a as ih => intro acc; simp [String.intercalate.go, ih, List.append_assoc]
  simp [String.intercalate, go]

theorem intercalate_empty_sep (xs : List String) :
    String.intercalate "" xs = String.join xs := by
  apply String.ext
  rw [String.data_join]
  cases xs with
  | nil => rfl
  | cons a rest =>
    rw [intercalate_cons_data]
    simp

theorem unsupportedRegionMsg_ne (region : String) :
    unsupportedRegionMsg region ≠ emptyShortNameMsg := by
  intro h
  have := congrArg String.data h
  simp [unsupportedRegionMsg, emptyShortNameMsg, String.data_append] at this

theorem Name_indep_engine (n m : NamingAws) (prefixSegments : Slice)
    (shortName separator : String) :
    (Name n prefixSegments shortName separator).name
      = (Name m prefixSegments shortName separator).name ∧
    (Name n prefixSegments shortName separator).err
      = (Name m prefixSegments shortName separator).err := by
  by_cases h : shortName = ""
  · subst h
    simp [Name_empty]
  · simp [Name_ok _ _ shortName _ h]

theorem WithRegionName_indep_engine (n m : NamingAws) (shortName separator region : String)
    (hp : n.PrefixSegments.elems = m.PrefixSegments.elems)
    (hu : n.UseShortRegion = m.UseShortRegion) :
    (WithRegionName n shortName separator region).name
      = (WithRegionName m shortName separator region).name ∧
    (WithRegionName n shortName separator region).err
      = (WithRegionName m shortName separator region).err := by
  cases hres : (if n.UseShortRegion then lookupRegion region else some region) with
  | none =>
    have hres2 : (if m.UseShortRegion then lookupRegion region else some region) = none := by
      rw [← hu]; exact hres
    rw [WithRegionName_unresolved n _ _ _ hres, WithRegionName_unresolved m _ _ _ hres2]
    exact ⟨rfl, rfl⟩
  | some seg =>
    have hres2 : (if m.UseShortRegion then lookupRegion region else some region)
        = some seg := by
      rw [← hu]; exact hres
    by_cases h : shortName = ""
    · subst h
      have a := WithRegionName_resolved_empty n separator region seg hres
      have b := WithRegionName_resolved_empty m separator region seg hres2
      exact ⟨a.2.trans b.2.symm, a.1.trans b.1.symm⟩
    · have a := WithRegionName_resolved n shortName separator region seg hres h
      have b := WithRegionName_resolved m shortName separator region seg hres2 h
      exact ⟨by rw [a.2, b.2, hp], a.1.trans b.1.symm⟩

theorem WithRegionName_engine_flag (n : NamingAws) (shortName separator region : String) :
    (WithRegionName n shortName separator region).engine.UseShortRegion
      = n.UseShortRegion := by
  cases hres : (if n.UseShortRegion then lookupRegion region else some region) with
  | none => rw [WithRegionName_unresolved n shortName separator region hres]
  | some seg =>
    simp only [WithRegionName, hres]
    split <;> simp [Name_engine]

theorem codes_prefix_free :
    ∀ p ∈ ShortRegions, ∀ q ∈ ShortRegions, p.1 ≠ q.1 → ¬ (p.2.data <+: q.2.data) := by
  decide

theorem intercalate_ne_of_heads (sep1 sep2 c1 c2 : String) (xs ys : List String)
    (h12 : ¬ (c1.data <+: c2.data)) (h21 : ¬ (c2.data <+: c1.data)) :
    sep1.intercalate (c1 :: xs) ≠ sep2.intercalate (c2 :: ys) := by
  intro h
  have hd := congrArg String.data h
  rw [intercalate_cons_data, intercalate_cons_data, List.append_eq_append_iff] at hd
  rcases hd with ⟨a, ha, _⟩ | ⟨c, hc, _⟩
  · exact h12 ⟨a, ha.symm⟩
  · exact h21 ⟨c, hc.symm⟩

/-! ## The joining primitive -/

/-- C1: for every prefix list, every non-empty short name and every separator, `Name` returns
a nil error and the name is the prefix elements in their order followed by the short name,
with the separator between consecutive elements; stated both with the library join on
strings and character by character, so no character is dropped, added or altered. -/
theorem Name_joins_prefix_then_shortName (n : NamingAws) (prefixSegments : Slice)
    (shortName separator : String) (h : shortName ≠ "") :
    (Name n prefixSegments shortName separator).err = none ∧
    (Name n prefixSegments shortName separator).name
      = separator.intercalate (prefixSegments.elems ++ [shortName]) ∧
    (Name n prefixSegments shortName separator).name.data
      = List.intercalate separator.data
          ((prefixSegments.elems ++ [shortName]).map String.data) := by
  rw [Name_ok n prefixSegments shortName separator h]
  exact ⟨rfl, rfl, intercalate_data _ _⟩

/-- Witness for C1: the test case with symbols in every segment. -/
theorem Name_joins_prefix_then_shortName_witness :
    (Name NewNamingAws ⟨["prod$", "app#"], []⟩ "service*" "_").err = none ∧
    (Name NewNamingAws ⟨["prod$", "app#"], []⟩ "service*" "_").name = "prod$_app#_service*" := by
  have h := Name_joins_prefix_then_shortName NewNamingAws ⟨["prod$", "app#"], []⟩
    "service*" "_" (by decide)
  refine ⟨h.1, ?_⟩
  rw [h.2.1]
  decide

/-- C2: with an empty short name `Name` fails for every prefix list and separator, the error
text is the fixed message, the returned string is empty, and `Name` fails for no other
short name. -/
theorem Name_fails_iff_shortName_empty (n : NamingAws) (prefixSegments : Slice)
    (shortName separator : String) :
    (Name n prefixSegments "" separator).err
      = some "Passed an empty shortName but that's not supported. shortName is required to be non-empty." ∧
    (Name n prefixSegments "" separator).name = "" ∧
    ((Name n prefixSegments shortName separator).err ≠ none ↔ shortName = "") := by
  refine ⟨by rw [Name_empty]; rfl, by rw [Name_empty], ?_⟩
  by_cases h : shortName = ""
  · subst h
    simp [Name_empty]
  · simp [Name_ok n prefixSegments shortName separator h, h]

/-! ## The region table -/

/-- C3: the table has 33 entries under 33 different keys, and two keys of the table with the
same short code are the same key. -/
theorem ShortRegions_codes_distinct :
    ShortRegions.length = 33 ∧
    (ShortRegions.map Prod.fst).Nodup ∧
    (ShortRegions.map Prod.snd).Nodup ∧
    ∀ r1 r2 : String, r1 ∈ ShortRegions.map Prod.fst → r2 ∈ ShortRegions.map Prod.fst →
      lookupRegion r1 = lookupRegion r2 → r1 = r2 := by
  refine ⟨by decide, by decide, by decide, ?_⟩
  intro r1 r2 h1 h2
  revert r2
  revert r1
  decide

/-! ## Region-qualified naming -/

/-- C4: with `UseShortRegion` off, for every region string, every non-empty short name and
every separator, `WithRegionName` returns a nil error and the join of the region as given,
the configured prefix segments in order, and the short name. -/
theorem WithRegionName_full_region_verbatim (n : NamingAws)
    (shortName separator region : String)
    (hflag : n.UseShortRegion = false) (h : shortName ≠ "") :
    (WithRegionName n shortName separator region).err = none ∧
    (WithRegionName n shortName separator region).name
      = separator.intercalate (region :: n.PrefixSegments.elems ++ [shortName]) :=
  WithRegionName_resolved n shortName separator region region (by simp [hflag]) h

/-- Witness for C4: the empty region with the hierarchical delimiter gives `/service`. -/
theorem WithRegionName_full_region_verbatim_witness :
    (WithRegionName NewNamingAws "service" NewNamingAws.SSMDelimiter "").err = none ∧
    (WithRegionName NewNamingAws "service" NewNamingAws.SSMDelimiter "").name = "/service" := by
  have h := WithRegionName_full_region_verbatim NewNamingAws "service"
    NewNamingAws.SSMDelimiter "" (by decide) (by decide)
  refine ⟨h.1, ?_⟩
  rw [h.2]
  decide

/-- C5: with `UseShortRegion` on, for every entry `(region, code)` of the table, every
non-empty short name and every separator, `WithRegionName` returns a nil error and the join
of the short code, the configured prefix segments in order, and the short name. -/
theorem WithRegionName_short_region_code (n : NamingAws)
    (shortName separator region code : String)
    (hflag : n.UseShortRegion = true) (hk : (region, code) ∈ ShortRegions)
    (h : shortName ≠ "") :
    (WithRegionName n shortName separator region).err = none ∧
    (WithRegionName n shortName separator region).name
      = separator.intercalate (code :: n.PrefixSegments.elems ++ [shortName]) :=
  WithRegionName_resolved n shortName separator region code
    (by simpa [hflag] using lookupRegion_of_entry _ hk) h

/-- Witness for C5: `us-west-2` with `_` and an empty prefix gives `usw2_service`. -/
theorem WithRegionName_short_region_code_witness :
    (WithRegionName { NewNamingAws with UseShortRegion := true } "service" "_" "us-west-2").err
      = none ∧
    (WithRegionName { NewNamingAws with UseShortRegion := true } "service" "_" "us-west-2").name
      = "usw2_service" := by
  have h := WithRegionName_short_region_code { NewNamingAws with UseShortRegion := true }
    "service" "_" "us-west-2" "usw2" rfl (by decide) (by decide)
  refine ⟨h.1, ?_⟩
  rw [h.2]
  decide

/-- C6: with `UseShortRegion` on and a region that is no key of the table, `WithRegionName`
fails for every short name and separator, returns the empty string, and the error text is
the fixed sentence with the region string put in as given. -/
theorem WithRegionName_unsupported_region (n : NamingAws)
    (shortName separator region : String)
    (hflag : n.UseShortRegion = true) (hk : region ∉ ShortRegions.map Prod.fst) :
    (WithRegionName n shortName separator region).err
      = some ("Region " ++ region ++
          " is not supported. Please create a new issue if it's a region that is supported by AWS.") ∧
    (WithRegionName n shortName separator region).name = "" := by
  have hl : lookupRegion region = none := lookup_none_of_not_key region ShortRegions hk
  simp [WithRegionName, hflag, hl, unsupportedRegionMsg]

/-- Witness for C6: the region `non-existent`, with an empty short name. -/
theorem WithRegionName_unsupported_region_witness :
    (WithRegionName { NewNamingAws with UseShortRegion := true } "" "-" "non-existent").err
      = some "Region non-existent is not supported. Please create a new issue if it's a region that is supported by AWS." ∧
    (WithRegionName { NewNamingAws with UseShortRegion := true } "" "-" "non-existent").name
      = "" := by
  have h := WithRegionName_unsupported_region { NewNamingAws with UseShortRegion := true }
    "" "-" "non-existent" rfl (by decide)
  refine ⟨?_, h.2⟩
  rw [h.1]
  decide

/-! ## Effects on the engine -/

/-- C7: an engine whose `PrefixSegments` is `["prod", "app"]` with one spare cell of capacity
(`append(make([]string, 0, 3), "prod", "app")`): after `WithRegionName("svc", "-",
"us-west-2")` has returned `us-west-2-prod-app-svc`, the engine reads `["us-west-2", "prod"]`
as its prefix segments, while the same prefix without spare capacity is left as it was. -/
theorem WithRegionName_overwrites_PrefixSegments :
    (WithRegionName { NewNamingAws with PrefixSegments := ⟨["prod", "app"], [""]⟩ }
        "svc" "-" "us-west-2").name = "us-west-2-prod-app-svc" ∧
    (WithRegionName { NewNamingAws with PrefixSegments := ⟨["prod", "app"], [""]⟩ }
        "svc" "-" "us-west-2").err = none ∧
    (WithRegionName { NewNamingAws with PrefixSegments := ⟨["prod", "app"], [""]⟩ }
        "svc" "-" "us-west-2").engine.PrefixSegments.elems = ["us-west-2", "prod"] ∧
    (WithRegionName { NewNamingAws with PrefixSegments := ⟨["prod", "app"], []⟩ }
        "svc" "-" "us-west-2").engine.PrefixSegments.elems = ["prod", "app"] := by
  decide

/-- C8: on the engine of C7 the same call made twice in a row returns
`us-west-2-prod-app-svc` the first time and `us-west-2-us-west-2-prod-svc` the second
time, both with a nil error. -/
theorem WithRegionName_twice_differs :
    (WithRegionName { NewNamingAws with PrefixSegments := ⟨["prod", "app"], [""]⟩ }
        "svc" "-" "us-west-2").name = "us-west-2-prod-app-svc" ∧
    (WithRegionName
        (WithRegionName { NewNamingAws with PrefixSegments := ⟨["prod", "app"], [""]⟩ }
          "svc" "-" "us-west-2").engine
        "svc" "-" "us-west-2").name = "us-west-2-us-west-2-prod-svc" ∧
    (WithRegionName
        (WithRegionName { NewNamingAws with PrefixSegments := ⟨["prod", "app"], [""]⟩ }
          "svc" "-" "us-west-2").engine
        "svc" "-" "us-west-2").err = none := by
  decide

/-! ## Derived conventions -/

/-- C9: `Default(shortName)` returns what `Name(PrefixSegments, shortName, DefaultDelimiter)`
returns, string and error (and leaves the same engine and output); with the defaults of the
constructor and the prefix `["prod", "app"]`, `Default("service")` is `prod-app-service`. -/
theorem Default_eq_Name (n : NamingAws) (shortName : String) (spare : List String) :
    Default n shortName = Name n n.PrefixSegments shortName n.DefaultDelimiter ∧
    (Default { NewNamingAws with PrefixSegments := ⟨["prod", "app"], spare⟩ } "service").name
      = "prod-app-service" ∧
    (Default { NewNamingAws with PrefixSegments := ⟨["prod", "app"], spare⟩ } "service").err
      = none := by
  have hgen : ∀ (m : NamingAws) (s : String),
      Default m s = Name m m.PrefixSegments s m.DefaultDelimiter := by
    intro m s
    by_cases h : s = ""
    · subst h
      simp [Default, Name_empty]
    · simp [Default, Name_ok _ _ s _ h]
  refine ⟨hgen n shortName, ?_, ?_⟩
  · rw [hgen, Name_ok _ _ _ _ (by decide)]
    show "-".intercalate (["prod", "app"] ++ ["service"]) = "prod-app-service"
    decide
  · rw [hgen, Name_ok _ _ _ _ (by decide)]

/-- C10: `SSMParameter(shortName)` returns what `Name(PrefixSegments, shortName,
SSMDelimiter)` returns, string and error (and leaves the same engine and output); with the
defaults of the constructor and the prefix `["prod", "app"]`, `SSMParameter("parameter")` is
`prod/app/parameter`. -/
theorem SSMParameter_eq_Name (n : NamingAws) (shortName : String) (spare : List String) :
    SSMParameter n shortName = Name n n.PrefixSegments shortName n.SSMDelimiter ∧
    (SSMParameter { NewNamingAws with PrefixSegments := ⟨["prod", "app"], spare⟩ }
        "parameter").name = "prod/app/parameter" ∧
    (SSMParameter { NewNamingAws with PrefixSegments := ⟨["prod", "app"], spare⟩ }
        "parameter").err = none := by
  have hgen : ∀ (m : NamingAws) (s : String),
      SSMParameter m s = Name m m.PrefixSegments s m.SSMDelimiter := by
    intro m s
    by_cases h : s = ""
    · subst h
      simp [SSMParameter, Name_empty]
    · simp [SSMParameter, Name_ok _ _ s _ h]
  refine ⟨hgen n shortName, ?_, ?_⟩
  · rw [hgen, Name_ok _ _ _ _ (by decide)]
    show "/".intercalate (["prod", "app"] ++ ["parameter"]) = "prod/app/parameter"
    decide
  · rw [hgen, Name_ok _ _ _ _ (by decide)]

/-- C11: `WithRegionS3Bucket` returns what `WithRegionDefault` returns, which is what
`WithRegionName` returns with `DefaultDelimiter` (string, error, engine and output), while
`S3Bucket` returns the string and error of `Name` with `SSMDelimiter`; with the defaults of
the constructor and the prefix `["prod"]` the two bucket variants use `-` and `/`. -/
theorem WithRegionS3Bucket_uses_DefaultDelimiter (n : NamingAws) (shortName region : String)
    (spare : List String) :
    WithRegionS3Bucket n shortName region = WithRegionDefault n shortName region ∧
    WithRegionS3Bucket n shortName region
      = WithRegionName n shortName n.DefaultDelimiter region ∧
    (S3Bucket n shortName).name
      = (Name n n.PrefixSegments shortName n.SSMDelimiter).name ∧
    (S3Bucket n shortName).err
      = (Name n n.PrefixSegments shortName n.SSMDelimiter).err ∧
    (WithRegionS3Bucket { NewNamingAws with PrefixSegments := ⟨["prod"], spare⟩ }
        "bucket" "us-west-2").name = "us-west-2-prod-bucket" ∧
    (S3Bucket { NewNamingAws with PrefixSegments := ⟨["prod"], spare⟩ } "bucket").name
      = "prod/bucket" := by
  refine ⟨rfl, WithRegionS3Bucket_eq n shortName region, ?_, ?_, ?_, ?_⟩
  · rw [S3Bucket_eq]
  · rw [S3Bucket_eq]
  · rw [WithRegionS3Bucket_eq]
    refine (WithRegionName_resolved _ _ _ _ "us-west-2" (by rfl) (by decide)).2.trans ?_
    show "-".intercalate ("us-west-2" :: ["prod"] ++ ["bucket"]) = "us-west-2-prod-bucket"
    decide
  · rw [S3Bucket_eq, Name_ok _ _ _ _ (by decide)]
    show "/".intercalate (["prod"] ++ ["bucket"]) = "prod/bucket"
    decide

/-- C12: `S3Bucket(shortName)` returns the string and the error of
`SSMParameter(shortName)` and leaves the same engine; it prints its one advisory line in
every case, and for a non-empty short name the result is a nil error and the configured
prefix followed by the short name joined with `SSMDelimiter`. -/
theorem S3Bucket_eq_SSMParameter (n : NamingAws) (shortName : String) :
    (S3Bucket n shortName).name = (SSMParameter n shortName).name ∧
    (S3Bucket n shortName).err = (SSMParameter n shortName).err ∧
    (S3Bucket n shortName).engine = (SSMParameter n shortName).engine ∧
    (S3Bucket n shortName).printed = [s3Advice] ∧
    (shortName ≠ "" →
      (S3Bucket n shortName).err = none ∧
      (S3Bucket n shortName).name
        = n.SSMDelimiter.intercalate (n.PrefixSegments.elems ++ [shortName])) := by
  rw [S3Bucket_eq, SSMParameter_eq]
  refine ⟨rfl, rfl, rfl, rfl, ?_⟩
  intro h
  rw [Name_ok n _ shortName _ h]
  exact ⟨rfl, rfl⟩

/-- C13: `WithRegionDefault` returns what `WithRegionName` returns with `DefaultDelimiter`
and `WithRegionSSMParameter` what it returns with `SSMDelimiter` (string, error, engine and
output); in short mode `us-west-2` gives `usw2-service` and, for the SSM variant,
`eu-central-1` gives `euc1/service`. -/
theorem WithRegion_variants_eq_WithRegionName (n : NamingAws) (shortName region : String) :
    WithRegionDefault n shortName region
      = WithRegionName n shortName n.DefaultDelimiter region ∧
    WithRegionSSMParameter n shortName region
      = WithRegionName n shortName n.SSMDelimiter region ∧
    (WithRegionDefault { NewNamingAws with UseShortRegion := true } "service" "us-west-2").name
      = "usw2-service" ∧
    (WithRegionDefault { NewNamingAws with UseShortRegion := true } "service" "us-west-2").err
      = none ∧
    (WithRegionSSMParameter { NewNamingAws with UseShortRegion := true } "service"
        "eu-central-1").name = "euc1/service" ∧
    (WithRegionSSMParameter { NewNamingAws with UseShortRegion := true } "service"
        "eu-central-1").err = none := by
  refine ⟨WithRegionDefault_eq n shortName region,
    WithRegionSSMParameter_eq n shortName region, ?_, ?_, ?_, ?_⟩ <;> decide

/-! ## Errors -/

/-- C14: with an empty short name `Default`, `SSMParameter` and `S3Bucket` return the empty
string and the error of `Name`, whose text is the fixed message for every prefix and
separator; when the region resolves (short mode off, or the region is a key of the table)
`WithRegionName`, `WithRegionDefault`, `WithRegionSSMParameter` and `WithRegionS3Bucket`
return the empty string and that same error. -/
theorem empty_shortName_error_unchanged (n : NamingAws) (separator region : String)
    (hres : n.UseShortRegion = true → region ∈ ShortRegions.map Prod.fst) :
    (∀ (m : NamingAws) (ps : Slice) (sep : String),
      (Name m ps "" sep).err = some emptyShortNameMsg ∧ (Name m ps "" sep).name = "") ∧
    ((Default n "").err = (Name n n.PrefixSegments "" n.DefaultDelimiter).err ∧
      (Default n "").name = "") ∧
    ((SSMParameter n "").err = (Name n n.PrefixSegments "" n.SSMDelimiter).err ∧
      (SSMParameter n "").name = "") ∧
    ((S3Bucket n "").err = (Name n n.PrefixSegments "" n.SSMDelimiter).err ∧
      (S3Bucket n "").name = "") ∧
    ((WithRegionName n "" separator region).err = some emptyShortNameMsg ∧
      (WithRegionName n "" separator region).name = "") ∧
    ((WithRegionDefault n "" region).err = some emptyShortNameMsg ∧
      (WithRegionDefault n "" region).name = "") ∧
    ((WithRegionSSMParameter n "" region).err = some emptyShortNameMsg ∧
      (WithRegionSSMParameter n "" region).name = "") ∧
    ((WithRegionS3Bucket n "" region).err = some emptyShortNameMsg ∧
      (WithRegionS3Bucket n "" region).name = "") := by
  have hseg : ∃ seg, (if n.UseShortRegion then lookupRegion region else some region)
      = some seg := by
    cases hf : n.UseShortRegion with
    | false => exact ⟨region, by simp⟩
    | true =>
      obtain ⟨code, _, hc⟩ := lookupRegion_of_key region (hres hf)
      exact ⟨code, by simpa using hc⟩
  obtain ⟨seg, hseg⟩ := hseg
  refine ⟨fun m ps sep => by rw [Name_empty]; exact ⟨rfl, rfl⟩, ?_, ?_, ?_,
    WithRegionName_resolved_empty n separator region seg hseg, ?_, ?_, ?_⟩
  · rw [Default_eq, Name_empty]; exact ⟨rfl, rfl⟩
  · rw [SSMParameter_eq, Name_empty]; exact ⟨rfl, rfl⟩
  · rw [S3Bucket_eq, Name_empty]; exact ⟨rfl, rfl⟩
  · rw [WithRegionDefault_eq]; exact WithRegionName_resolved_empty n _ region seg hseg
  · rw [WithRegionSSMParameter_eq]; exact WithRegionName_resolved_empty n _ region seg hseg
  · rw [WithRegionS3Bucket_eq]; exact WithRegionName_resolved_empty n _ region seg hseg

/-- Witness for C14: short mode on the default engine with the region `us-west-2`. -/
theorem empty_shortName_error_unchanged_witness :
    (WithRegionName { NewNamingAws with UseShortRegion := true } "" "_" "us-west-2").err
      = some emptyShortNameMsg ∧
    (WithRegionS3Bucket { NewNamingAws with UseShortRegion := true } "" "us-west-2").name
      = "" ∧
    (Default { NewNamingAws with UseShortRegion := true } "").err
      = (Name { NewNamingAws with UseShortRegion := true } Slice.empty "" "-").err := by
  have h := empty_shortName_error_unchanged { NewNamingAws with UseShortRegion := true }
    "_" "us-west-2" (fun _ => by decide)
  exact ⟨h.2.2.2.2.1.1, h.2.2.2.2.2.2.2.2, h.2.1.1⟩

/-- C15: `WithRegionName` fails exactly when short mode is on and the region is no key of the
table, or the short name is empty; in the first case the error is the unsupported-region
error, otherwise the empty-short-name error, and the two texts differ; on failure the
returned string is empty, and on success it is the join of the resolved region segment, the
configured prefix and the short name. -/
theorem WithRegionName_failure_modes (n : NamingAws) (shortName separator region : String) :
    ((WithRegionName n shortName separator region).err ≠ none ↔
      (n.UseShortRegion = true ∧ region ∉ ShortRegions.map Prod.fst) ∨ shortName = "") ∧
    (n.UseShortRegion = true ∧ region ∉ ShortRegions.map Prod.fst →
      (WithRegionName n shortName separator region).err
        = some (unsupportedRegionMsg region)) ∧
    (¬ (n.UseShortRegion = true ∧ region ∉ ShortRegions.map Prod.fst) → shortName = "" →
      (WithRegionName n shortName separator region).err = some emptyShortNameMsg) ∧
    unsupportedRegionMsg region ≠ emptyShortNameMsg ∧
    ((WithRegionName n shortName separator region).err ≠ none →
      (WithRegionName n shortName separator region).name = "") ∧
    ((WithRegionName n shortName separator region).err = none →
      ∃ seg, (if n.UseShortRegion then lookupRegion region else some region) = some seg ∧
        (WithRegionName n shortName separator region).name
          = separator.intercalate (seg :: n.PrefixSegments.elems ++ [shortName])) := by
  by_cases hbad : n.UseShortRegion = true ∧ region ∉ ShortRegions.map Prod.fst
  · have hres : (if n.UseShortRegion then lookupRegion region else some region) = none := by
      simp [hbad.1, lookupRegion, lookup_none_of_not_key region ShortRegions hbad.2]
    rw [WithRegionName_unresolved n shortName separator region hres]
    simp [hbad, unsupportedRegionMsg_ne]
  · have hseg : ∃ seg, (if n.UseShortRegion then lookupRegion region else some region)
        = some seg := by
      cases hf : n.UseShortRegion with
      | false => exact ⟨region, by simp⟩
      | true =>
        have hk : region ∈ ShortRegions.map Prod.fst := by
          by_contra hk
          exact hbad ⟨hf, hk⟩
        obtain ⟨code, _, hc⟩ := lookupRegion_of_key region hk
        exact ⟨code, by simpa using hc⟩
    obtain ⟨seg, hseg⟩ := hseg
    by_cases h : shortName = ""
    · subst h
      have he := WithRegionName_resolved_empty n separator region seg hseg
      refine ⟨by simp [he.1], fun hb => absurd hb hbad, fun _ _ => he.1,
        unsupportedRegionMsg_ne region, fun _ => he.2, ?_⟩
      intro hnone
      rw [he.1] at hnone
      exact absurd hnone (by simp)
    · have ho := WithRegionName_resolved n shortName separator region seg hseg h
      refine ⟨⟨fun hne => absurd ho.1 hne, fun hor => hor.elim (fun hb => absurd hb hbad)
        (fun he => absurd he h)⟩, fun hb => absurd hb hbad, fun _ he => absurd he h,
        unsupportedRegionMsg_ne region, fun hne => absurd ho.1 hne, fun _ => ⟨seg, hseg, ho.2⟩⟩

/-! ## Edge cases of the joining primitive -/

/-- C16: with no prefix segments, a non-empty short name and any separator, `Name` returns
the short name itself with a nil error. -/
theorem Name_no_prefix_returns_shortName (n : NamingAws) (prefixSegments : Slice)
    (shortName separator : String)
    (hp : prefixSegments.elems = []) (h : shortName ≠ "") :
    (Name n prefixSegments shortName separator).name = shortName ∧
    (Name n prefixSegments shortName separator).err = none := by
  rw [Name_ok n prefixSegments shortName separator h, hp]
  exact ⟨rfl, rfl⟩

/-- Witness for C16: `join([], "svc", "-")` is `svc`, also with a multi-character separator. -/
theorem Name_no_prefix_returns_shortName_witness :
    (Name NewNamingAws Slice.empty "svc" "-").name = "svc" ∧
    (Name NewNamingAws Slice.empty "svc" "-").err = none ∧
    (Name NewNamingAws ⟨[], ["x"]⟩ "svc" "::").name = "svc" :=
  ⟨(Name_no_prefix_returns_shortName NewNamingAws Slice.empty "svc" "-" rfl (by decide)).1,
    (Name_no_prefix_returns_shortName NewNamingAws Slice.empty "svc" "-" rfl (by decide)).2,
    (Name_no_prefix_returns_shortName NewNamingAws ⟨[], ["x"]⟩ "svc" "::" rfl (by decide)).1⟩

/-- C17: with the empty separator and a non-empty short name, `Name` returns the plain
concatenation of the prefix segments followed by the short name (as strings and character
by character) with a nil error; in short mode with an empty prefix,
`WithRegionName("config", "", "ap-southeast-1")` is `apse1config`. -/
theorem Name_empty_separator (n : NamingAws) (prefixSegments : Slice) (shortName : String)
    (spare : List String) (h : shortName ≠ "") :
    (Name n prefixSegments shortName "").err = none ∧
    (Name n prefixSegments shortName "").name
      = String.join (prefixSegments.elems ++ [shortName]) ∧
    (Name n prefixSegments shortName "").name.data
      = ((prefixSegments.elems ++ [shortName]).map String.data).flatten ∧
    (WithRegionName { NewNamingAws with UseShortRegion := true, PrefixSegments := ⟨[], spare⟩ }
        "config" "" "ap-southeast-1").name = "apse1config" ∧
    (WithRegionName { NewNamingAws with UseShortRegion := true, PrefixSegments := ⟨[], spare⟩ }
        "config" "" "ap-southeast-1").err = none := by
  rw [Name_ok n prefixSegments shortName "" h]
  have hw := WithRegionName_resolved
    { NewNamingAws with UseShortRegion := true, PrefixSegments := ⟨[], spare⟩ }
    "config" "" "ap-southeast-1" "apse1"
    (by show lookupRegion "ap-southeast-1" = some "apse1"; decide) (by decide)
  refine ⟨rfl, intercalate_empty_sep _, ?_, ?_, hw.1⟩
  · show (String.intercalate "" (prefixSegments.elems ++ [shortName])).data = _
    rw [intercalate_empty_sep, String.data_join]
  · rw [hw.2]
    show "".intercalate ("apse1" :: [] ++ ["config"]) = "apse1config"
    decide

/-- Witness for C17: `["prod", "app"]` and `svc` with the empty separator give `prodappsvc`. -/
theorem Name_empty_separator_witness :
    (Name NewNamingAws ⟨["prod", "app"], []⟩ "svc" "").name = "prodappsvc" ∧
    (Name NewNamingAws ⟨["prod", "app"], []⟩ "svc" "").err = none := by
  have h := Name_empty_separator NewNamingAws ⟨["prod", "app"], []⟩ "svc" [] (by decide)
  refine ⟨?_, h.1⟩
  rw [h.2.1]
  decide

/-! ## The constructor and the unused field -/

/-- C18: `NewNamingAws` has no prefix segments (length and capacity zero), `-` as default
delimiter, `/` as SSM delimiter, short mode off and suffix length 4; on it `Default` and
`SSMParameter` return a non-empty short name unchanged with a nil error. -/
theorem NewNamingAws_defaults (shortName : String) (h : shortName ≠ "") :
    NewNamingAws.PrefixSegments.elems = [] ∧
    NewNamingAws.PrefixSegments.cap = 0 ∧
    NewNamingAws.DefaultDelimiter = "-" ∧
    NewNamingAws.SSMDelimiter = "/" ∧
    NewNamingAws.UseShortRegion = false ∧
    NewNamingAws.SuffixLength = 4 ∧
    (Default NewNamingAws shortName).name = shortName ∧
    (Default NewNamingAws shortName).err = none ∧
    (SSMParameter NewNamingAws shortName).name = shortName ∧
    (SSMParameter NewNamingAws shortName).err = none := by
  rw [Default_eq, SSMParameter_eq, Name_ok _ _ shortName _ h, Name_ok _ _ shortName _ h]
  exact ⟨rfl, rfl, rfl, rfl, rfl, rfl, rfl, rfl, rfl, rfl⟩

/-- Witness for C18: the short name `service`. -/
theorem NewNamingAws_defaults_witness :
    (Default NewNamingAws "service").name = "service" ∧
    (SSMParameter NewNamingAws "service").name = "service" :=
  ⟨(NewNamingAws_defaults "service" (by decide)).2.2.2.2.2.2.1,
    (NewNamingAws_defaults "service" (by decide)).2.2.2.2.2.2.2.2.1⟩

/-- C19: replacing `SuffixLength` by any other value changes neither the string nor the
error returned by `Name`, `Default`, `SSMParameter`, `S3Bucket`, `WithRegionName`,
`WithRegionDefault`, `WithRegionSSMParameter` and `WithRegionS3Bucket`, whatever the
arguments. -/
theorem SuffixLength_unused (n : NamingAws) (k : Int) (prefixSegments : Slice)
    (shortName separator region : String) :
    ((Name { n with SuffixLength := k } prefixSegments shortName separator).name
        = (Name n prefixSegments shortName separator).name ∧
      (Name { n with SuffixLength := k } prefixSegments shortName separator).err
        = (Name n prefixSegments shortName separator).err) ∧
    ((Default { n with SuffixLength := k } shortName).name = (Default n shortName).name ∧
      (Default { n with SuffixLength := k } shortName).err = (Default n shortName).err) ∧
    ((SSMParameter { n with SuffixLength := k } shortName).name
        = (SSMParameter n shortName).name ∧
      (SSMParameter { n with SuffixLength := k } shortName).err
        = (SSMParameter n shortName).err) ∧
    ((S3Bucket { n with SuffixLength := k } shortName).name = (S3Bucket n shortName).name ∧
      (S3Bucket { n with SuffixLength := k } shortName).err = (S3Bucket n shortName).err) ∧
    ((WithRegionName { n with SuffixLength := k } shortName separator region).name
        = (WithRegionName n shortName separator region).name ∧
      (WithRegionName { n with SuffixLength := k } shortName separator region).err
        = (WithRegionName n shortName separator region).err) ∧
    ((WithRegionDefault { n with SuffixLength := k } shortName region).name
        = (WithRegionDefault n shortName region).name ∧
      (WithRegionDefault { n with SuffixLength := k } shortName region).err
        = (WithRegionDefault n shortName region).err) ∧
    ((WithRegionSSMParameter { n with SuffixLength := k } shortName region).name
        = (WithRegionSSMParameter n shortName region).name ∧
      (WithRegionSSMParameter { n with SuffixLength := k } shortName region).err
        = (WithRegionSSMParameter n shortName region).err) ∧
    ((WithRegionS3Bucket { n with SuffixLength := k } shortName region).name
        = (WithRegionS3Bucket n shortName region).name ∧
      (WithRegionS3Bucket { n with SuffixLength := k } shortName region).err
        = (WithRegionS3Bucket n shortName region).err) := by
  refine ⟨Name_indep_engine _ n _ _ _, ?_, ?_, ?_,
    WithRegionName_indep_engine _ n _ _ _ rfl rfl, ?_, ?_, ?_⟩
  · rw [Default_eq, Default_eq]
    exact Name_indep_engine _ n _ _ _
  · rw [SSMParameter_eq, SSMParameter_eq]
    exact Name_indep_engine _ n _ _ _
  · rw [S3Bucket_eq, S3Bucket_eq]
    exact Name_indep_engine _ n _ _ _
  · rw [WithRegionDefault_eq, WithRegionDefault_eq]
    exact WithRegionName_indep_engine _ n _ _ _ rfl rfl
  · rw [WithRegionSSMParameter_eq, WithRegionSSMParameter_eq]
    exact WithRegionName_indep_engine _ n _ _ _ rfl rfl
  · rw [WithRegionS3Bucket_eq, WithRegionS3Bucket_eq]
    exact WithRegionName_indep_engine _ n _ _ _ rfl rfl

/-! ## Distinct regions -/

/-- C20: in short mode, with a non-empty short name and any separator, two different keys of
the table both give a nil error and give different names on the same engine; the names
also differ when the second call runs on the engine as the first call left it. -/
theorem WithRegionName_distinct_regions (n : NamingAws) (shortName separator r1 r2 : String)
    (hflag : n.UseShortRegion = true) (h : shortName ≠ "")
    (h1 : r1 ∈ ShortRegions.map Prod.fst) (h2 : r2 ∈ ShortRegions.map Prod.fst)
    (hne : r1 ≠ r2) :
    (WithRegionName n shortName separator r1).err = none ∧
    (WithRegionName n shortName separator r2).err = none ∧
    (WithRegionName n shortName separator r1).name
      ≠ (WithRegionName n shortName separator r2).name ∧
    (WithRegionName (WithRegionName n shortName separator r1).engine
      shortName separator r2).err = none ∧
    (WithRegionName n shortName separator r1).name
      ≠ (WithRegionName (WithRegionName n shortName separator r1).engine
          shortName separator r2).name := by
  obtain ⟨c1, hc1, hl1⟩ := lookupRegion_of_key r1 h1
  obtain ⟨c2, hc2, hl2⟩ := lookupRegion_of_key r2 h2
  have p12 : ¬ (c1.data <+: c2.data) := codes_prefix_free (r1, c1) hc1 (r2, c2) hc2 hne
  have p21 : ¬ (c2.data <+: c1.data) :=
    codes_prefix_free (r2, c2) hc2 (r1, c1) hc1 (fun e => hne e.symm)
  have hflag2 : (WithRegionName n shortName separator r1).engine.UseShortRegion = true := by
    rw [WithRegionName_engine_flag]; exact hflag
  have a := WithRegionName_resolved n shortName separator r1 c1 (by simpa [hflag] using hl1) h
  have b := WithRegionName_resolved n shortName separator r2 c2 (by simpa [hflag] using hl2) h
  have c := WithRegionName_resolved (WithRegionName n shortName separator r1).engine
    shortName separator r2 c2 (by simpa [hflag2] using hl2) h
  refine ⟨a.1, b.1, ?_, c.1, ?_⟩
  · rw [a.2, b.2]
    exact intercalate_ne_of_heads _ _ _ _ _ _ p12 p21
  · rw [c.2, a.2]
    exact intercalate_ne_of_heads _ _ _ _ _ _ p12 p21

/-- Witness for C20: `us-west-1` and `us-west-2` on the default engine in short mode. -/
theorem WithRegionName_distinct_regions_witness :
    (WithRegionName { NewNamingAws with UseShortRegion := true } "service" "-" "us-west-1").name
      ≠ (WithRegionName { NewNamingAws with UseShortRegion := true } "service" "-"
          "us-west-2").name :=
  (WithRegionName_distinct_regions { NewNamingAws with UseShortRegion := true } "service" "-"
    "us-west-1" "us-west-2" rfl (by decide) (by decide) (by decide) (by decide)).2.2.1

end Aws
